import Mathlib

/-!
Verification of the summoner ceremony ledger (`tools/summonerd/src/storage.rs`).

The storage layer keeps an append-only SQLite table `phase2_contributions`
with columns `(slot, is_root, contribution_or_crs, contributor)`.  We embed
the table as a list of rows, SQLite transaction serialization as sequential
application of the operations, and the SQL statements of each method by
their documented semantics (`INSERT ... VALUES(NULL, ...)` assigns the next
rowid, `SELECT MAX(slot)` returns `NULL` on an empty table, `ORDER BY slot
DESC LIMIT 1` returns the row with the greatest slot).

The cryptographic types (`Phase2CeremonyCRS`, `Phase2CeremonyContribution`,
their raw variants and their protobuf encodings) live in the
`penumbra_proof_setup` and `penumbra_proto` crates, which are not part of
this source tree; they are modelled from the spec as opaque values with a
validation flag, with injective encode/decode pairs.
-/

/-- Modelled from the spec: a raw (unverified) CRS as decoded from payload
bytes (`Phase2RawCeremonyCRS` of the `penumbra_proof_setup` crate, not in
this tree).  `id` stands for the opaque group elements; `wellFormed` records
whether the validation oracle of spec §6 would accept it. -/
structure Phase2RawCeremonyCRS where
  id : Nat
  wellFormed : Bool
deriving DecidableEq, Repr

/-- Modelled from the spec: a CRS of the validated variant
(`Phase2CeremonyCRS`, not in this tree).  In the source this type is the raw
data after `assume_valid()` or after the validation oracle; it carries the
same underlying data. -/
structure Phase2CeremonyCRS where
  raw : Phase2RawCeremonyCRS
deriving DecidableEq, Repr

/-- Modelled from the spec: a raw (unverified) contribution
(`Phase2RawCeremonyContribution`, not in this tree).  `newElems` is the CRS
it claims to derive from the prior tip; `wellFormed` records whether the
validation oracle (proof-of-correct-update against the prior CRS) would
accept it. -/
structure Phase2RawCeremonyContribution where
  newElems : Phase2RawCeremonyCRS
  wellFormed : Bool
deriving DecidableEq, Repr

/-- Modelled from the spec: a contribution of the validated variant
(`Phase2CeremonyContribution`, not in this tree), same underlying data as
the raw form. -/
structure Phase2CeremonyContribution where
  raw : Phase2RawCeremonyContribution
deriving DecidableEq, Repr

/-- The source's `assume_valid()` on a raw CRS: converts raw to validated
WITHOUT consulting the validation oracle (spec §9 calls this a stub). -/
def assumeValidCrs (r : Phase2RawCeremonyCRS) : Phase2CeremonyCRS := ⟨r⟩

/-- The source's `assume_valid()` on a raw contribution: converts raw to
validated WITHOUT consulting the validation oracle. -/
def assumeValidContribution (r : Phase2RawCeremonyContribution) :
    Phase2CeremonyContribution := ⟨r⟩

/-- The source's `new_elements()`: extracts the derived CRS of a validated
contribution; pure, total. -/
def newElements (c : Phase2CeremonyContribution) : Phase2CeremonyCRS :=
  ⟨c.raw.newElems⟩

/-- Modelled from the spec: the validation oracle `validate_structure` for a
raw CRS (spec §6); accepts exactly the well-formed values. -/
def validateCrs (r : Phase2RawCeremonyCRS) : Option Phase2CeremonyCRS :=
  if r.wellFormed then some ⟨r⟩ else none

/-- Modelled from the spec: the validation oracle `validate_extends` for a
raw contribution (spec §6); accepts exactly the well-formed values. -/
def validateContribution (r : Phase2RawCeremonyContribution) :
    Option Phase2CeremonyContribution :=
  if r.wellFormed then some ⟨r⟩ else none

/-- Payload and address bytes, abstracted as lists of naturals. -/
abbrev Bytes := List Nat

/-- Modelled from the spec: protobuf encoding of a CRS
(`pb::CeremonyCrs::try_from(..).encode_to_vec()`, not in this tree).
Tag 0 distinguishes the message type from contributions. -/
def encodeCrs (c : Phase2CeremonyCRS) : Bytes :=
  [0, c.raw.id, if c.raw.wellFormed then 1 else 0]

/-- Modelled from the spec: protobuf decoding of payload bytes as a raw CRS
(`pb::CeremonyCrs::decode` followed by `try_from`, not in this tree);
partial inverse of `encodeCrs`. -/
def decodeCrs (b : Bytes) : Option Phase2RawCeremonyCRS :=
  match b with
  | [0, n, w] => some ⟨n, w == 1⟩
  | _ => none

/-- Modelled from the spec: protobuf encoding of a contribution
(`PBContribution::try_from(..).encode_to_vec()`, not in this tree). -/
def encodeContribution (c : Phase2CeremonyContribution) : Bytes :=
  [1, c.raw.newElems.id, if c.raw.newElems.wellFormed then 1 else 0,
   if c.raw.wellFormed then 1 else 0]

/-- Modelled from the spec: protobuf decoding of payload bytes as a raw
contribution (`PBContribution::decode` followed by `try_from`, not in this
tree); partial inverse of `encodeContribution`. -/
def decodeContribution (b : Bytes) : Option Phase2RawCeremonyContribution :=
  match b with
  | [1, n, w, v] => some ⟨⟨n, w == 1⟩, v == 1⟩
  | _ => none

/-- Modelled from the spec: the well-known genesis CRS
(`Phase2CeremonyCRS::root()`, not in this tree); a fixed well-formed value. -/
def rootCrs : Phase2CeremonyCRS := ⟨⟨0, true⟩⟩

/-- One row of the `phase2_contributions` table: columns
`(slot, is_root, contribution_or_crs, contributor)`.  `contributor` is the
nullable address blob (`contributor.to_vec()`), abstracted as a natural. -/
structure Slot where
  slot : Nat
  is_root : Bool
  contribution_or_crs : Bytes
  contributor : Option Nat
deriving DecidableEq, Repr

/-- The state of one SQLite database file: either the schema was never
created (no `phase2_contributions` table) or the table with its rows in
insertion order. -/
inductive DB where
  | noSchema : DB
  | tbl (slots : List Slot) : DB
deriving DecidableEq, Repr

/-- Errors surfaced by the storage operations (`anyhow::Result` in the
source; we name the distinct failure causes). -/
inductive StorageError where
  | noSuchTable
  | queryReturnedNoRows
  | decodeFailure
  | alreadyExists
  | storeUnavailable
deriving DecidableEq, Repr

/-- The root row inserted by `Storage::initialize`:
`INSERT INTO phase2_contributions VALUES (0, 1, <encoded root>, NULL)`. -/
def rootSlot : Slot := ⟨0, true, encodeCrs rootCrs, none⟩

/-- A freshly bootstrapped store: schema created and the root row inserted,
in one transaction. -/
def freshDB : DB := DB.tbl [rootSlot]

/-- SQL `MAX(slot)` over the rows (on the empty table `MAX` is `NULL`,
which `current_slot` maps to 0 via `unwrap_or(0)`; we fold with default 0,
which agrees because slot numbers are naturals). -/
def maxSlot (slots : List Slot) : Nat :=
  (slots.map (·.slot)).foldr max 0

/-- SQL `ORDER BY slot DESC LIMIT 1`: the row with the greatest slot number
(slot is the primary key, so rows have distinct slot numbers in any state
produced by the operations; ties keep the earlier row). -/
def tipSlot (slots : List Slot) : Option Slot :=
  match slots with
  | [] => none
  | s :: rest => some (rest.foldl (fun acc t => if acc.slot < t.slot then t else acc) s)

/-- `Storage::current_slot`: `SELECT MAX(slot) FROM phase2_contributions`,
`unwrap_or(0)`. -/
def currentSlot (db : DB) : Except StorageError Nat :=
  match db with
  | DB.noSchema => .error .noSuchTable
  | DB.tbl slots => .ok (maxSlot slots)

/-- `Storage::current_crs`: read the row with the greatest slot; if
`is_root`, decode the payload as a CRS and `assume_valid()` it; otherwise
decode it as a contribution, `assume_valid()` it and take `new_elements()`. -/
def currentCrs (db : DB) : Except StorageError Phase2CeremonyCRS :=
  match db with
  | DB.noSchema => .error .noSuchTable
  | DB.tbl slots =>
    match tipSlot slots with
    | none => .error .queryReturnedNoRows
    | some tip =>
      if tip.is_root then
        match decodeCrs tip.contribution_or_crs with
        | none => .error .decodeFailure
        | some raw => .ok (assumeValidCrs raw)
      else
        match decodeContribution tip.contribution_or_crs with
        | none => .error .decodeFailure
        | some raw => .ok (newElements (assumeValidContribution raw))

/-- `Storage::commit_contribution`:
`INSERT INTO phase2_contributions VALUES(NULL, 0, <encoded contribution>, <contributor bytes>)`
in one transaction.  The `NULL` slot makes SQLite assign the next rowid,
i.e. one more than the current maximum (spec §6: `slot_number` integer
primary key, auto-assigned monotonic; `schema.sql` is not in this tree).
No tip is read and no conflict check of any kind is performed. -/
def commitContribution (db : DB) (contributor : Nat)
    (contribution : Phase2CeremonyContribution) : Except StorageError DB :=
  match db with
  | DB.noSchema => .error .noSuchTable
  | DB.tbl slots =>
    .ok (DB.tbl (slots ++
      [⟨maxSlot slots + 1, false, encodeContribution contribution, some contributor⟩]))

/-- `Storage::root`:
`SELECT contribution_or_crs FROM phase2_contributions WHERE is_root LIMIT 1`,
decoded as a CRS and `assume_valid()`-ed. -/
def rootOp (db : DB) : Except StorageError Phase2CeremonyCRS :=
  match db with
  | DB.noSchema => .error .noSuchTable
  | DB.tbl slots =>
    match slots.find? (·.is_root) with
    | none => .error .queryReturnedNoRows
    | some s =>
      match decodeCrs s.contribution_or_crs with
      | none => .error .decodeFailure
      | some raw => .ok (assumeValidCrs raw)

/-- Sequential application of `commit_contribution` for a list of
(contributor, contribution) pairs.  SQLite serializes the write
transactions, so any set of concurrent calls executes as some such
sequence. -/
def commitList (db : DB) (l : List (Nat × Phase2CeremonyContribution)) :
    Except StorageError DB :=
  match l with
  | [] => .ok db
  | p :: rest =>
    match commitContribution db p.1 p.2 with
    | .error e => .error e
    | .ok db' => commitList db' rest

/-- The status of the path given to the file-level operations: the location
is unreadable, no file exists there, or a database file with the given
state exists. -/
inductive FileStatus where
  | inaccessible : FileStatus
  | absent : FileStatus
  | present (db : DB) : FileStatus
deriving DecidableEq, Repr

/-- `Storage::initialize`, over the state of the target location.  The
source connects (creating the file when absent — the open flags include
CREATE), then in ONE transaction runs `schema.sql` and inserts the root
row.  Modelled from the spec where the tree lacks the code: `schema.sql`
(not in this tree) creates the table, which fails when the store already
exists (spec §4.2: fails with `AlreadyExists` if a store already exists at
the target location), rolling the transaction back and leaving the
existing store unmodified; connecting to an inaccessible location fails.
The returned status is the state of the location afterwards. -/
def initStore (st : FileStatus) : Except StorageError Unit × FileStatus :=
  match st with
  | FileStatus.inaccessible => (.error .storeUnavailable, st)
  | FileStatus.absent => (.ok (), FileStatus.present freshDB)
  | FileStatus.present DB.noSchema => (.ok (), FileStatus.present freshDB)
  | FileStatus.present (DB.tbl s) => (.error .alreadyExists, FileStatus.present (DB.tbl s))

/-- `Storage::load`: builds a connection pool for the path and nothing
else — no read, no write, no schema check.  Opening an inaccessible
location fails (spec §4.2: `StoreUnavailable`); an absent path is created
as an empty database because the open flags include CREATE.  Returns the
database the handle is attached to together with the state of the location
afterwards. -/
def loadStore (st : FileStatus) : Except StorageError DB × FileStatus :=
  match st with
  | FileStatus.inaccessible => (.error .storeUnavailable, st)
  | FileStatus.absent => (.ok DB.noSchema, FileStatus.present DB.noSchema)
  | FileStatus.present db => (.ok db, st)

/-- `Storage::load_or_initialize`: branch on existence of the path
(`storage_path.exists()`), `load` when it exists, `initialize` otherwise. -/
def loadOrInit (st : FileStatus) : Except StorageError DB × FileStatus :=
  match st with
  | FileStatus.present _ => loadStore st
  | FileStatus.absent => match initStore st with
    | (.ok (), st') => (.ok freshDB, st')
    | (.error e, st') => (.error e, st')
  | FileStatus.inaccessible => (.error .storeUnavailable, st)

/-- Modelled from the spec: the chain observer (spec §6,
`PenumbraKnower::total_amount_sent_to_me`, not in this tree), a query
returning the cumulative amount sent by an address; amounts are `u128`
values, abstracted as naturals since they are only compared. -/
abbrev ChainObserver := Nat → Nat

/-- `MIN_BID_AMOUNT_U64`. -/
def MIN_BID_AMOUNT_U64 : Nat := 1

/-- `Storage::can_contribute`: ask the chain observer for the total amount
the address sent, return `None` below the minimum bid, `Some(amount)`
otherwise.  The banned-address and already-contributed checks of the
source's comment are `TODO` and absent: the function consults only the
observer, never the ledger or a ban list. -/
def canContribute (knower : ChainObserver) (address : Nat) : Option Nat :=
  if knower address < MIN_BID_AMOUNT_U64 then none
  else some (knower address)

/-- A concrete well-formed contribution used in concrete evaluations. -/
def cW : Phase2CeremonyContribution := ⟨⟨⟨5, true⟩, true⟩⟩

/-- The store after committing `cW` for contributor 3 on a fresh store. -/
def dbW : DB := DB.tbl [rootSlot, ⟨1, false, encodeContribution cW, some 3⟩]

/-- The store after committing `cW` for contributor 5 on a fresh store. -/
def dbW4 : DB := DB.tbl [rootSlot, ⟨1, false, encodeContribution cW, some 5⟩]

/-- A concrete contribution the validation oracle rejects. -/
def badRaw : Phase2RawCeremonyContribution := ⟨⟨7, true⟩, false⟩

/-- The store after committing `badRaw` (laundered through `assume_valid`)
for contributor 1 on a fresh store. -/
def dbBad : DB :=
  DB.tbl [rootSlot,
    ⟨1, false, encodeContribution (assumeValidContribution badRaw), some 1⟩]

/-! General lemmas about the embedding. -/

theorem le_foldr_max (l : List Nat) (x : Nat) (hx : x ∈ l) : x ≤ l.foldr max 0 := by
  induction l with
  | nil => cases hx
  | cons a t ih =>
    rcases List.mem_cons.mp hx with h | h
    · subst h; exact le_max_left _ _
    · exact le_trans (ih h) (le_max_right _ _)

theorem slot_le_maxSlot (slots : List Slot) (s : Slot) (hs : s ∈ slots) :
    s.slot ≤ maxSlot slots :=
  le_foldr_max _ _ (List.mem_map_of_mem _ hs)

theorem foldr_max_init (l : List Nat) (b : Nat) :
    l.foldr max b = max b (l.foldr max 0) := by
  induction l with
  | nil => simp
  | cons a t ih => simp only [List.foldr_cons, ih]; omega

theorem foldr_max_range (n : Nat) : (List.range (n + 1)).foldr max 0 = n := by
  induction n with
  | zero => rfl
  | succ m ih =>
    rw [List.range_succ, List.foldr_append]
    simp only [List.foldr_cons, List.foldr_nil]
    rw [foldr_max_init, ih]
    omega

theorem foldl_pick_bound (l : List Slot) (acc : Slot) (b : Nat)
    (hacc : acc.slot < b) (hl : ∀ t ∈ l, t.slot < b) :
    (l.foldl (fun acc t => if acc.slot < t.slot then t else acc) acc).slot < b := by
  induction l generalizing acc with
  | nil => exact hacc
  | cons a t ih =>
    simp only [List.foldl_cons]
    refine ih _ ?_ (fun x hx => hl x (List.mem_cons_of_mem _ hx))
    by_cases h : acc.slot < a.slot
    · simpa [h] using hl a (List.mem_cons_self _ _)
    · simpa [h] using hacc

theorem tipSlot_append (slots : List Slot) (s : Slot)
    (h : ∀ t ∈ slots, t.slot < s.slot) : tipSlot (slots ++ [s]) = some s := by
  cases slots with
  | nil => rfl
  | cons a t =>
    simp only [tipSlot, List.cons_append, List.foldl_append, List.foldl_cons,
      List.foldl_nil]
    have hacc : (t.foldl (fun acc u => if acc.slot < u.slot then u else acc) a).slot
        < s.slot := by
      refine foldl_pick_bound t a s.slot (h a ?_) (fun x hx => h x ?_)
      · exact List.mem_cons_self _ _
      · exact List.mem_cons_of_mem _ hx
    simp [hacc]

theorem decode_encode_crs (c : Phase2CeremonyCRS) :
    decodeCrs (encodeCrs c) = some c.raw := by
  obtain ⟨⟨n, w⟩⟩ := c
  cases w <;> rfl

theorem decode_encode_contribution (c : Phase2CeremonyContribution) :
    decodeContribution (encodeContribution c) = some c.raw := by
  obtain ⟨⟨⟨n, w⟩, v⟩⟩ := c
  cases w <;> cases v <;> rfl

theorem commitContribution_tbl (slots : List Slot) (a : Nat)
    (c : Phase2CeremonyContribution) :
    commitContribution (DB.tbl slots) a c =
      .ok (DB.tbl (slots ++
        [⟨maxSlot slots + 1, false, encodeContribution c, some a⟩])) := rfl

theorem currentCrs_after_commit (slots : List Slot) (a : Nat)
    (c : Phase2CeremonyContribution) (db' : DB)
    (h : commitContribution (DB.tbl slots) a c = .ok db') :
    currentCrs db' = .ok (newElements c) := by
  rw [commitContribution_tbl] at h
  injection h with h
  subst h
  have htip : tipSlot (slots ++
      [⟨maxSlot slots + 1, false, encodeContribution c, some a⟩]) =
      some ⟨maxSlot slots + 1, false, encodeContribution c, some a⟩ := by
    refine tipSlot_append _ _ (fun t ht => ?_)
    have := slot_le_maxSlot slots t ht
    show t.slot < maxSlot slots + 1
    omega
  simp [currentCrs, htip, decode_encode_contribution, assumeValidContribution,
    newElements]

theorem commitList_slots (L : List (Nat × Phase2CeremonyContribution)) :
    ∀ (n : Nat) (slots : List Slot), slots.map (·.slot) = List.range (n + 1) →
    ∃ slots', commitList (DB.tbl slots) L = .ok (DB.tbl slots') ∧
      slots'.map (·.slot) = List.range (n + L.length + 1) := by
  induction L with
  | nil =>
    intro n slots h
    exact ⟨slots, rfl, by simpa using h⟩
  | cons p rest ih =>
    intro n slots h
    have hmax : maxSlot slots = n := by
      unfold maxSlot; rw [h]; exact foldr_max_range n
    have hstep : ((slots ++
        [⟨n + 1, false, encodeContribution p.2, some p.1⟩] : List Slot).map (·.slot))
        = List.range ((n + 1) + 1) := by
      rw [List.map_append, h, List.range_succ (n + 1)]
      rfl
    obtain ⟨slots', hrun, hmap⟩ := ih (n + 1)
      (slots ++ [⟨n + 1, false, encodeContribution p.2, some p.1⟩]) hstep
    refine ⟨slots', ?_, ?_⟩
    · simp only [commitList, commitContribution_tbl, hmax]
      exact hrun
    · rw [hmap]
      simp only [List.length_cons]
      congr 1
      omega

theorem commitList_shape (L : List (Nat × Phase2CeremonyContribution)) :
    ∀ rest : List Slot,
    (∀ s ∈ rest, s.is_root = false ∧ s.contributor ≠ none) →
    ∃ rest', commitList (DB.tbl (rootSlot :: rest)) L = .ok (DB.tbl (rootSlot :: rest')) ∧
      (∀ s ∈ rest', s.is_root = false ∧ s.contributor ≠ none) ∧
      ∃ tail, rest' = rest ++ tail := by
  induction L with
  | nil =>
    intro rest h
    exact ⟨rest, rfl, h, [], by simp⟩
  | cons p L₂ ih =>
    intro rest h
    have hprop : ∀ s ∈ rest ++
        [(⟨maxSlot (rootSlot :: rest) + 1, false, encodeContribution p.2, some p.1⟩ : Slot)],
        s.is_root = false ∧ s.contributor ≠ none := by
      intro s hs
      rcases List.mem_append.mp hs with h1 | h1
      · exact h s h1
      · have hz := List.mem_singleton.mp h1
        subst hz
        exact ⟨rfl, by simp⟩
    obtain ⟨rest', hrun, hall, tail, htail⟩ := ih (rest ++
      [⟨maxSlot (rootSlot :: rest) + 1, false, encodeContribution p.2, some p.1⟩]) hprop
    refine ⟨rest', ?_, hall, ?_⟩
    · simp only [commitList, commitContribution_tbl]
      rw [← List.cons_append] at hrun
      exact hrun
    · exact ⟨[⟨maxSlot (rootSlot :: rest) + 1, false, encodeContribution p.2, some p.1⟩]
        ++ tail, by rw [htail, List.append_assoc]⟩

/-- C1: the claim says that of N concurrent `commit_contribution` calls
validated against the same ledger tip exactly one commits and the others
fail with a conflict/stale-tip error.  The source's `commit_contribution`
performs a single unconditional INSERT with a store-assigned slot number
and takes no expected-tip argument, so it has no failure path other than a
missing table: under SQLite's serialization of the two concurrent
transactions BOTH calls succeed, at slots 1 and 2, refuting the claim. -/
theorem commit_contribution_never_conflicts :
    (∀ (slots : List Slot) (a : Nat) (c : Phase2CeremonyContribution),
      ∃ db', commitContribution (DB.tbl slots) a c = .ok db') ∧
    commitContribution freshDB 1 ⟨⟨⟨5, true⟩, true⟩⟩ =
      .ok (DB.tbl [rootSlot,
        ⟨1, false, encodeContribution ⟨⟨⟨5, true⟩, true⟩⟩, some 1⟩]) ∧
    commitContribution
      (DB.tbl [rootSlot, ⟨1, false, encodeContribution ⟨⟨⟨5, true⟩, true⟩⟩, some 1⟩])
      2 ⟨⟨⟨6, true⟩, true⟩⟩ =
      .ok (DB.tbl [rootSlot,
        ⟨1, false, encodeContribution ⟨⟨⟨5, true⟩, true⟩⟩, some 1⟩,
        ⟨2, false, encodeContribution ⟨⟨⟨6, true⟩, true⟩⟩, some 2⟩]) :=
  ⟨fun _ _ _ => ⟨_, rfl⟩, rfl, rfl⟩

/-- C2: after `commit_contribution(contributor, C)` succeeds on any table
state, `current_crs()` returns `new_elements(C)` (the payload round-trips
through encode/decode and the new row has the greatest slot number), and on
a freshly bootstrapped store `current_crs()` returns the decoded genesis
root CRS. -/
theorem currentCrs_roundtrip (slots : List Slot) (a : Nat)
    (c : Phase2CeremonyContribution) (db' : DB)
    (h : commitContribution (DB.tbl slots) a c = .ok db') :
    currentCrs db' = .ok (newElements c) ∧ currentCrs freshDB = .ok rootCrs :=
  ⟨currentCrs_after_commit slots a c db' h, rfl⟩

/-- Witness for C2: the commit of `cW` by contributor 3 on a fresh store. -/
theorem currentCrs_roundtrip_witness :
    commitContribution (DB.tbl [rootSlot]) 3 cW = .ok dbW ∧
    (currentCrs dbW = .ok (newElements cW) ∧ currentCrs freshDB = .ok rootCrs) :=
  ⟨rfl, currentCrs_roundtrip [rootSlot] 3 cW dbW rfl⟩

/-- C3: starting from a fresh store (root at slot 0), any sequence of K
`commit_contribution` calls succeeds, the committed slot numbers are exactly
0, 1, ..., K (strictly increasing and gap-free, assigned by the store), and
`current_slot()` then returns K. -/
theorem slot_numbers_gap_free (L : List (Nat × Phase2CeremonyContribution)) :
    ∃ slots, commitList freshDB L = .ok (DB.tbl slots) ∧
      slots.map (·.slot) = List.range (L.length + 1) ∧
      currentSlot (DB.tbl slots) = .ok L.length := by
  obtain ⟨slots, hrun, hmap⟩ := commitList_slots L 0 [rootSlot] rfl
  have hmap' : slots.map (·.slot) = List.range (L.length + 1) := by
    simpa using hmap
  have hms : maxSlot slots = L.length := by
    unfold maxSlot
    rw [hmap']
    exact foldr_max_range L.length
  exact ⟨slots, hrun, hmap', by simp [currentSlot, hms]⟩

/-- C4: every state reachable from a fresh store by `commit_contribution`
calls is the root row followed by contribution rows: exactly one row has
`is_root = true`, it sits at slot 0 with a NULL contributor, every other
row has `is_root = false` and a non-NULL contributor, and the only writing
operation appends a fresh row after the existing ones (no update or
delete). -/
theorem single_root_invariant (L : List (Nat × Phase2CeremonyContribution)) (db : DB)
    (h : commitList freshDB L = .ok db) :
    ∃ rest, db = DB.tbl (rootSlot :: rest) ∧
      (rootSlot :: rest).filter (·.is_root) = [rootSlot] ∧
      rootSlot.slot = 0 ∧ rootSlot.is_root = true ∧ rootSlot.contributor = none ∧
      (∀ s ∈ rest, s.is_root = false ∧ s.contributor ≠ none) ∧
      (∀ (a : Nat) (c : Phase2CeremonyContribution),
        commitContribution db a c =
          .ok (DB.tbl ((rootSlot :: rest) ++
            [⟨maxSlot (rootSlot :: rest) + 1, false, encodeContribution c, some a⟩]))) := by
  obtain ⟨rest, hrun, hall, tail, htail⟩ :=
    commitList_shape L [] (by intro s hs; cases hs)
  have h' : commitList (DB.tbl (rootSlot :: [])) L = .ok db := h
  rw [h'] at hrun
  injection hrun with hdb
  subst hdb
  have hnil : rest.filter (·.is_root) = [] := by
    rw [List.filter_eq_nil_iff]
    intro s hs
    simp [(hall s hs).1]
  refine ⟨rest, rfl, ?_, rfl, rfl, rfl, hall,
    fun a c => commitContribution_tbl (rootSlot :: rest) a c⟩
  simp [List.filter_cons, hnil, rootSlot]

/-- Witness for C4: the state after one commit by contributor 5. -/
theorem single_root_invariant_witness :
    commitList freshDB [(5, cW)] = .ok dbW4 ∧
    (∃ rest, dbW4 = DB.tbl (rootSlot :: rest) ∧
      (rootSlot :: rest).filter (·.is_root) = [rootSlot] ∧
      rootSlot.slot = 0 ∧ rootSlot.is_root = true ∧ rootSlot.contributor = none ∧
      (∀ s ∈ rest, s.is_root = false ∧ s.contributor ≠ none) ∧
      (∀ (a : Nat) (c : Phase2CeremonyContribution),
        commitContribution dbW4 a c =
          .ok (DB.tbl ((rootSlot :: rest) ++
            [⟨maxSlot (rootSlot :: rest) + 1, false, encodeContribution c, some a⟩])))) :=
  ⟨rfl, single_root_invariant [(5, cW)] dbW4 rfl⟩

/-- C5: the claim says `current_crs()` fails whenever decoding OR validation
of the committed tip payload fails, and that a committed payload is never
returned as a usable CRS without an explicit fallible validation step.  The
source instead calls `assume_valid()` after decoding: here a contribution
the validation oracle rejects (`validateContribution badRaw = none`) is
committed (via the `assume_valid` cast) and `current_crs()` returns its CRS
as usable instead of failing; decoding the payload succeeds, so the only
fallible step taken is the decode. -/
theorem invalid_payload_returned_as_crs :
    commitContribution freshDB 1 (assumeValidContribution badRaw) = .ok dbBad ∧
    validateContribution badRaw = none ∧
    decodeContribution (encodeContribution (assumeValidContribution badRaw)) =
      some badRaw ∧
    currentCrs dbBad = .ok ⟨⟨7, true⟩⟩ :=
  ⟨rfl, rfl, rfl, rfl⟩

/-- C6: `can_contribute` returns `None` exactly when the chain observer's
reported total for the address is strictly below the minimum bid of 1 unit,
and returns `Some(amount)` with the reported amount exactly otherwise. -/
theorem admission_threshold (knower : ChainObserver) (a : Nat) :
    (canContribute knower a = none ↔ knower a < MIN_BID_AMOUNT_U64) ∧
    (canContribute knower a = some (knower a) ↔ MIN_BID_AMOUNT_U64 ≤ knower a) := by
  unfold canContribute MIN_BID_AMOUNT_U64
  split_ifs with h
  · refine ⟨?_, ?_⟩
    · simpa using h
    · simp
      omega
  · refine ⟨?_, ?_⟩
    · simp
      omega
    · simp
      omega

/-- C7: the claim says `can_contribute` rejects addresses already recorded
as contributors and addresses on a ban list regardless of bid size.  The
source's `can_contribute` consults only the chain observer (the ledger and
ban-list checks are `TODO` comments): address 5 has already contributed
(it is the contributor of slot 1 in `dbW4`), yet with a reported total of
100 it is still admitted with `Some 100`. -/
theorem admission_ignores_ledger_and_ban_list :
    commitList freshDB [(5, cW)] = .ok dbW4 ∧
    (∃ s, dbW4 = DB.tbl [rootSlot, s] ∧ s.contributor = some 5) ∧
    canContribute (fun _ => 100) 5 = some 100 :=
  ⟨rfl, ⟨_, rfl, rfl⟩, rfl⟩

/-- C8: bootstrapping a location that already holds a store fails with the
already-exists error and leaves the store unmodified; bootstrapping an
absent location creates the schema and inserts exactly the root row
(slot 0, `is_root` true, encoded genesis payload, NULL contributor) in one
all-or-nothing transaction. -/
theorem init_store_behaviour (s : List Slot) :
    initStore (FileStatus.present (DB.tbl s)) =
      (.error .alreadyExists, FileStatus.present (DB.tbl s)) ∧
    initStore FileStatus.absent = (.ok (), FileStatus.present (DB.tbl [rootSlot])) ∧
    rootSlot = ⟨0, true, encodeCrs rootCrs, none⟩ :=
  ⟨rfl, rfl, rfl⟩

/-- C9 counterexample: the claim says `load` fails with `StoreUnavailable`
when the store's schema is missing or incompatible; the source's `load`
only builds a connection pool and performs no schema check, so loading a
database file with no schema succeeds, and the missing schema surfaces only
when a later operation touches the table. -/
theorem load_succeeds_without_schema :
    loadStore (FileStatus.present DB.noSchema) =
      (.ok DB.noSchema, FileStatus.present DB.noSchema) ∧
    currentSlot DB.noSchema = .error .noSuchTable :=
  ⟨rfl, rfl⟩

/-- C9 amended: `load` attaches to an existing store without modifying it
and fails with `StoreUnavailable` when the location is inaccessible; it
performs no schema check, so a missing or incompatible schema is not
detected at load time. -/
theorem load_behaviour (db : DB) :
    loadStore (FileStatus.present db) = (.ok db, FileStatus.present db) ∧
    loadStore FileStatus.inaccessible =
      (.error .storeUnavailable, FileStatus.inaccessible) :=
  ⟨rfl, rfl⟩

/-- C10: on a store whose table exists but has no rows (`MAX(slot)` is
NULL), `current_slot()` returns `Ok(0)` rather than an error — the same
answer as on a root-only store, so slot number alone cannot distinguish
the two. -/
theorem current_slot_empty_table :
    currentSlot (DB.tbl []) = .ok 0 ∧ currentSlot freshDB = .ok 0 :=
  ⟨rfl, rfl⟩
